import Mathlib

/-!
# Verification of the kube-bind example backend HTTP handshake

Shallow embedding of the authorization handshake of the kube-bind example
backend (`contrib/example-backend`): the `/authorize`, `/callback`,
`/resources` and `/bind` HTTP handlers, the `parseJWT` helper, and the
provider-side service-export reconciler's resource naming.

Modelling conventions:
* Go strings and byte slices are `List Nat` with every element `< 256`
  (Go strings are byte sequences).  ASCII literals are written with `ascii`.
* Go's `encoding/base64` std and raw-URL decoders are modelled faithfully at
  the byte level, including their skipping of `\r`/`\n` characters.
* Go's `encoding/json` marshalling of flat structs with string fields is
  modelled byte-for-byte: HTML-escaping of `<`, `>`, `&`, well-formed
  UTF-8 sequences carried verbatim except U+2028/U+2029 (escaped), and
  each invalid-UTF-8 byte replaced by the U+FFFD escape, as Go does.
  `json.Unmarshal` is modelled by a genuine recursive-descent parser for the
  flat string-field object fragment that those structs occupy, with Go's
  duplicate-key (last wins) and ASCII case-insensitive field matching.
* External collaborators (identity-provider token exchange, credential
  minter, CRD lister, template renderer) are handler parameters, mirroring
  the interfaces the Go code consumes.
-/

/-- Bytes of an ASCII/Lean string literal, as Go string bytes. -/
def ascii (s : String) : List Nat :=
  s.data.map Char.toNat

/-- All elements are bytes (`< 256`); the well-formedness invariant of the
byte-list model of Go strings. -/
def validBytes (l : List Nat) : Prop :=
  ∀ b ∈ l, b < 256

instance (l : List Nat) : Decidable (validBytes l) :=
  inferInstanceAs (Decidable (∀ b ∈ l, b < 256))

theorem validBytes_append {l₁ l₂ : List Nat} (h₁ : validBytes l₁)
    (h₂ : validBytes l₂) : validBytes (l₁ ++ l₂) := by
  intro b hb
  rcases List.mem_append.mp hb with h | h
  · exact h₁ b h
  · exact h₂ b h

theorem validBytes_cons {b : Nat} {l : List Nat} (hb : b < 256)
    (hl : validBytes l) : validBytes (b :: l) := by
  intro x hx
  rcases List.mem_cons.mp hx with rfl | h
  · exact hb
  · exact hl x h

/-! ## Base64 (Go `encoding/base64`)

`base64.StdEncoding.EncodeToString` / `DecodeString` (used for the
`state` parameter and the `auth_response` payload), and
`base64.RawURLEncoding.DecodeString` (used by `parseJWT`). -/

/-- The standard base64 alphabet. -/
def b64StdAlphabet : List Nat :=
  ascii "ABCDEFGHIJKLMNOPQRSTUVWXYZabcdefghijklmnopqrstuvwxyz0123456789+/"

/-- The URL-safe base64 alphabet (for `RawURLEncoding`). -/
def b64UrlAlphabet : List Nat :=
  ascii "ABCDEFGHIJKLMNOPQRSTUVWXYZabcdefghijklmnopqrstuvwxyz0123456789-_"

/-- Index of a byte in an alphabet (the sextet value of a base64 digit). -/
def alphaIdx : List Nat → Nat → Nat → Option Nat
  | [], _, _ => none
  | a :: t, c, i => if a = c then some i else alphaIdx t c (i + 1)

/-- Sextet value → standard-alphabet byte. -/
def encB64Char (n : Nat) : Nat :=
  b64StdAlphabet.getD n 0

/-- Standard-alphabet byte → sextet value. -/
def decB64Char (c : Nat) : Option Nat :=
  alphaIdx b64StdAlphabet c 0

/-- URL-alphabet byte → sextet value. -/
def decB64UrlChar (c : Nat) : Option Nat :=
  alphaIdx b64UrlAlphabet c 0

/-- `base64.StdEncoding.EncodeToString` on a byte list: 3 bytes → 4 digits,
with `=` padding for a 1- or 2-byte tail. -/
def b64encode : List Nat → List Nat
  | b1 :: b2 :: b3 :: rest =>
    encB64Char (b1 / 4) :: encB64Char ((b1 % 4) * 16 + b2 / 16) ::
      encB64Char ((b2 % 16) * 4 + b3 / 64) :: encB64Char (b3 % 64) ::
      b64encode rest
  | [b1, b2] =>
    [encB64Char (b1 / 4), encB64Char ((b1 % 4) * 16 + b2 / 16),
      encB64Char ((b2 % 16) * 4), 0x3d]
  | [b1] =>
    [encB64Char (b1 / 4), encB64Char ((b1 % 4) * 16), 0x3d, 0x3d]
  | [] => []

/-- Core of `base64.StdEncoding.DecodeString` (after newline stripping):
input must be a sequence of 4-digit groups, the last group optionally padded
with `=` (Go's non-strict decoder ignores surplus trailing bits; data after
padding is an error, as in Go). -/
def b64decodeCore : List Nat → Option (List Nat)
  | [] => some []
  | c1 :: c2 :: c3 :: c4 :: rest =>
    match decB64Char c1, decB64Char c2 with
    | some s1, some s2 =>
      if c3 = 0x3d then
        if c4 = 0x3d ∧ rest = [] then some [s1 * 4 + s2 / 16] else none
      else
        match decB64Char c3 with
        | some s3 =>
          if c4 = 0x3d then
            if rest = [] then some [s1 * 4 + s2 / 16, (s2 % 16) * 16 + s3 / 4]
            else none
          else
            match decB64Char c4 with
            | some s4 =>
              match b64decodeCore rest with
              | some bs =>
                some ((s1 * 4 + s2 / 16) :: ((s2 % 16) * 16 + s3 / 4) ::
                  ((s3 % 4) * 64 + s4) :: bs)
              | none => none
            | none => none
        | none => none
    | _, _ => none
  | _ => none

/-- Go's base64 decoders skip `\r` and `\n` anywhere in the input. -/
def stripNewlines (l : List Nat) : List Nat :=
  l.filter fun c => c != 0x0a && c != 0x0d

/-- `base64.StdEncoding.DecodeString`. -/
def b64decode (l : List Nat) : Option (List Nat) :=
  b64decodeCore (stripNewlines l)

/-- Core of `base64.RawURLEncoding.DecodeString`: unpadded groups; a single
leftover digit is corrupt input, 2 or 3 leftover digits decode to 1 or 2
bytes. -/
def rawB64UrlCore : List Nat → Option (List Nat)
  | [] => some []
  | c1 :: c2 :: c3 :: c4 :: rest =>
    match decB64UrlChar c1, decB64UrlChar c2, decB64UrlChar c3,
        decB64UrlChar c4 with
    | some s1, some s2, some s3, some s4 =>
      match rawB64UrlCore rest with
      | some bs =>
        some ((s1 * 4 + s2 / 16) :: ((s2 % 16) * 16 + s3 / 4) ::
          ((s3 % 4) * 64 + s4) :: bs)
      | none => none
    | _, _, _, _ => none
  | [c1, c2] =>
    match decB64UrlChar c1, decB64UrlChar c2 with
    | some s1, some s2 => some [s1 * 4 + s2 / 16]
    | _, _ => none
  | [c1, c2, c3] =>
    match decB64UrlChar c1, decB64UrlChar c2, decB64UrlChar c3 with
    | some s1, some s2, some s3 =>
      some [s1 * 4 + s2 / 16, (s2 % 16) * 16 + s3 / 4]
    | _, _, _ => none
  | [_] => none

/-- `base64.RawURLEncoding.DecodeString`. -/
def rawB64UrlDecode (l : List Nat) : Option (List Nat) :=
  rawB64UrlCore (stripNewlines l)

theorem decB64Char_encB64Char : ∀ n < 64, decB64Char (encB64Char n) = some n := by
  decide

theorem encB64Char_ne_pad : ∀ n < 64, encB64Char n ≠ 0x3d := by
  decide

theorem encB64Char_ne_newline :
    ∀ n < 64, encB64Char n ≠ 0x0a ∧ encB64Char n ≠ 0x0d := by
  decide

theorem mem_b64encode_ne_newline {bs : List Nat} (h : validBytes bs) :
    ∀ c ∈ b64encode bs, c ≠ 0x0a ∧ c ≠ 0x0d := by
  induction bs using b64encode.induct with
  | case1 b1 b2 b3 rest ih =>
    intro c hc
    have hb1 := h b1 (by simp)
    have hb2 := h b2 (by simp)
    have hb3 := h b3 (by simp)
    have hrest : validBytes rest := fun b hb => h b (by simp [hb])
    simp only [b64encode, List.mem_cons] at hc
    rcases hc with rfl | rfl | rfl | rfl | hc
    · exact encB64Char_ne_newline _ (by omega)
    · exact encB64Char_ne_newline _ (by omega)
    · exact encB64Char_ne_newline _ (by omega)
    · exact encB64Char_ne_newline _ (by omega)
    · exact ih hrest c hc
  | case2 b1 b2 =>
    intro c hc
    have hb1 := h b1 (by simp)
    have hb2 := h b2 (by simp)
    simp only [b64encode, List.mem_cons] at hc
    rcases hc with rfl | rfl | rfl | rfl | hc
    · exact encB64Char_ne_newline _ (by omega)
    · exact encB64Char_ne_newline _ (by omega)
    · exact encB64Char_ne_newline _ (by omega)
    · exact ⟨by decide, by decide⟩
    · simp at hc
  | case3 b1 =>
    intro c hc
    have hb1 := h b1 (by simp)
    simp only [b64encode, List.mem_cons] at hc
    rcases hc with rfl | rfl | rfl | rfl | hc
    · exact encB64Char_ne_newline _ (by omega)
    · exact encB64Char_ne_newline _ (by omega)
    · exact ⟨by decide, by decide⟩
    · exact ⟨by decide, by decide⟩
    · simp at hc
  | case4 =>
    intro c hc
    simp [b64encode] at hc

theorem stripNewlines_b64encode {bs : List Nat} (h : validBytes bs) :
    stripNewlines (b64encode bs) = b64encode bs := by
  apply List.filter_eq_self.mpr
  intro c hc
  have := mem_b64encode_ne_newline h c hc
  simp [this.1, this.2]

theorem b64decodeCore_b64encode {bs : List Nat} (h : validBytes bs) :
    b64decodeCore (b64encode bs) = some bs := by
  induction bs using b64encode.induct with
  | case1 b1 b2 b3 rest ih =>
    have hb1 := h b1 (by simp)
    have hb2 := h b2 (by simp)
    have hb3 := h b3 (by simp)
    have hrest : validBytes rest := fun b hb => h b (by simp [hb])
    have e1 := decB64Char_encB64Char (b1 / 4) (by omega)
    have e2 := decB64Char_encB64Char ((b1 % 4) * 16 + b2 / 16) (by omega)
    have e3 := decB64Char_encB64Char ((b2 % 16) * 4 + b3 / 64) (by omega)
    have e4 := decB64Char_encB64Char (b3 % 64) (by omega)
    have n3 := encB64Char_ne_pad ((b2 % 16) * 4 + b3 / 64) (by omega)
    have n4 := encB64Char_ne_pad (b3 % 64) (by omega)
    simp [b64encode, b64decodeCore, e1, e2, e3, e4, ih hrest, n3, n4]
    omega
  | case2 b1 b2 =>
    have hb1 := h b1 (by simp)
    have hb2 := h b2 (by simp)
    have e1 := decB64Char_encB64Char (b1 / 4) (by omega)
    have e2 := decB64Char_encB64Char ((b1 % 4) * 16 + b2 / 16) (by omega)
    have e3 := decB64Char_encB64Char ((b2 % 16) * 4) (by omega)
    have n3 := encB64Char_ne_pad ((b2 % 16) * 4) (by omega)
    simp [b64encode, b64decodeCore, e1, e2, e3, n3]
    omega
  | case3 b1 =>
    have hb1 := h b1 (by simp)
    have e1 := decB64Char_encB64Char (b1 / 4) (by omega)
    have e2 := decB64Char_encB64Char ((b1 % 4) * 16) (by omega)
    simp [b64encode, b64decodeCore, e1, e2]
    omega
  | case4 => simp [b64encode, b64decodeCore]

/-- Base64 round trip: decoding an encoding recovers the bytes. -/
theorem b64decode_b64encode {bs : List Nat} (h : validBytes bs) :
    b64decode (b64encode bs) = some bs := by
  rw [b64decode, stripNewlines_b64encode h, b64decodeCore_b64encode h]

/-! ## JSON (Go `encoding/json`, flat string-field structs)

`json.Marshal` on the structs used by the backend (`AuthCode`,
`AuthResponse`, identity claims) produces `{"Key":"value",...}` with Go's
string escaping (`"` `\` control characters, and the HTML-escaped `<` `>`
`&`).  Bytes `>= 0x80` are carried verbatim, as Go does for valid UTF-8.
`json.Unmarshal` into such a struct is modelled by a recursive-descent
parser of flat string-field objects with Go's field matching (exact or
ASCII case-insensitive, later duplicate keys overwrite earlier ones). -/

/-- Lowercase hex digit byte for a value `< 16` (Go emits lowercase in
`\u00xx` escapes). -/
def hexDigit (n : Nat) : Nat :=
  if n < 10 then 0x30 + n else 0x57 + n

/-- Value of a hex digit byte. -/
def hexVal (c : Nat) : Option Nat :=
  if 0x30 ≤ c ∧ c ≤ 0x39 then some (c - 0x30)
  else if 0x61 ≤ c ∧ c ≤ 0x66 then some (c - 0x57)
  else if 0x41 ≤ c ∧ c ≤ 0x46 then some (c - 0x37)
  else none

/-- UTF-8 bytes of a code point (as produced when decoding a `\uXXXX`
escape; surrogate pairing is not modelled, the marshaller only emits
`\u00XX`). -/
def utf8Encode (cp : Nat) : List Nat :=
  if cp < 0x80 then [cp]
  else if cp < 0x800 then [0xc0 + cp / 64, 0x80 + cp % 64]
  else [0xe0 + cp / 4096, 0x80 + (cp / 64) % 64, 0x80 + cp % 64]

/-- Go's JSON escaping of one ASCII byte (`encoding/json` `appendString`
with its default HTML escaping): `"` `\` escaped, `\n` `\r` `\t` named,
other control bytes and `<` `>` `&` as `\u00xx`, the rest verbatim.  Only
reached for bytes `< 0x80`; larger bytes go through the UTF-8 handling of
`escapeBytes`. -/
def escapeByte (b : Nat) : List Nat :=
  if b = 0x22 then [0x5c, 0x22]
  else if b = 0x5c then [0x5c, 0x5c]
  else if b = 0x0a then [0x5c, 0x6e]
  else if b = 0x0d then [0x5c, 0x72]
  else if b = 0x09 then [0x5c, 0x74]
  else if b < 0x20 ∨ b = 0x3c ∨ b = 0x3e ∨ b = 0x26 then
    [0x5c, 0x75, 0x30, 0x30, hexDigit (b / 16), hexDigit (b % 16)]
  else [b]

/-- A UTF-8 continuation byte (`0x80`-`0xbf`). -/
def isCont (b : Nat) : Bool :=
  0x80 <= b && b <= 0xbf

/-- The first-continuation-byte range of a 3-byte leader (`utf8`'s accept
ranges: `0xe0` excludes overlong forms, `0xed` excludes surrogates). -/
def cont1Ok3 (b b1 : Nat) : Bool :=
  if b = 0xe0 then 0xa0 <= b1 && b1 <= 0xbf
  else if b = 0xed then 0x80 <= b1 && b1 <= 0x9f
  else isCont b1

/-- The first-continuation-byte range of a 4-byte leader (`0xf0` excludes
overlong forms, `0xf4` caps at U+10FFFF). -/
def cont1Ok4 (b b1 : Nat) : Bool :=
  if b = 0xf0 then 0x90 <= b1 && b1 <= 0xbf
  else if b = 0xf4 then 0x80 <= b1 && b1 <= 0x8f
  else isCont b1

/-- `utf8.ValidString`: the byte list is a sequence of well-formed UTF-8
encodings (Go's accept ranges, rejecting overlong forms and surrogates). -/
def isValidUtf8 : List Nat -> Bool
  | [] => true
  | b :: t =>
    if b < 0x80 then isValidUtf8 t
    else
      match t with
      | [] => false
      | b1 :: t1 =>
        if 0xc2 <= b && b <= 0xdf then isCont b1 && isValidUtf8 t1
        else
          match t1 with
          | [] => false
          | b2 :: t2 =>
            if 0xe0 <= b && b <= 0xef then
              cont1Ok3 b b1 && isCont b2 && isValidUtf8 t2
            else
              match t2 with
              | [] => false
              | b3 :: t3 =>
                if 0xf0 <= b && b <= 0xf4 then
                  cont1Ok4 b b1 && isCont b2 && isCont b3 && isValidUtf8 t3
                else false

/-- JSON escaping of a whole string, following Go's `appendString` loop:
ASCII bytes via `escapeByte`; well-formed multi-byte UTF-8 sequences are
copied verbatim, except U+2028/U+2029 which are emitted as six-character
backslash-u escapes; each byte of an ill-formed sequence is replaced by
the six-character backslash-u escape of U+FFFD, as `encoding/json`
substitutes the replacement character for invalid UTF-8.  The fuel only
bounds the number of steps (each consumes at least one byte) and is
instantiated with the input length by `escapeBytes`. -/
def escapeBytesF : Nat -> List Nat -> List Nat
  | 0, _ => []
  | _ + 1, [] => []
  | fuel + 1, b :: t =>
    if b < 0x80 then escapeByte b ++ escapeBytesF fuel t
    else
      match t with
      | [] => ascii "\\ufffd"
      | b1 :: t1 =>
        if 0xc2 <= b && b <= 0xdf then
          if isCont b1 then b :: b1 :: escapeBytesF fuel t1
          else ascii "\\ufffd" ++ escapeBytesF fuel (b1 :: t1)
        else
          match t1 with
          | [] => ascii "\\ufffd" ++ escapeBytesF fuel [b1]
          | b2 :: t2 =>
            if 0xe0 <= b && b <= 0xef then
              if cont1Ok3 b b1 && isCont b2 then
                if (b - 0xe0) * 4096 + (b1 - 0x80) * 64 + (b2 - 0x80) = 0x2028 then
                  ascii "\\u2028" ++ escapeBytesF fuel t2
                else if (b - 0xe0) * 4096 + (b1 - 0x80) * 64 + (b2 - 0x80) = 0x2029 then
                  ascii "\\u2029" ++ escapeBytesF fuel t2
                else b :: b1 :: b2 :: escapeBytesF fuel t2
              else ascii "\\ufffd" ++ escapeBytesF fuel (b1 :: b2 :: t2)
            else
              match t2 with
              | [] => ascii "\\ufffd" ++ escapeBytesF fuel [b1, b2]
              | b3 :: t3 =>
                if 0xf0 <= b && b <= 0xf4 then
                  if cont1Ok4 b b1 && isCont b2 && isCont b3 then
                    b :: b1 :: b2 :: b3 :: escapeBytesF fuel t3
                  else ascii "\\ufffd" ++ escapeBytesF fuel (b1 :: b2 :: b3 :: t3)
                else ascii "\\ufffd" ++ escapeBytesF fuel (b1 :: b2 :: b3 :: t3)

/-- JSON escaping of a whole string (`escapeBytesF` with enough fuel). -/
def escapeBytes (s : List Nat) : List Nat :=
  escapeBytesF s.length s

/-- A JSON string literal: quote, escaped contents, quote. -/
def jsonQuote (s : List Nat) : List Nat :=
  0x22 :: escapeBytes s ++ [0x22]

/-- Prefix a byte onto the parsed contents of a string-parser result. -/
def consFst (c : Nat) (r : Option (List Nat × List Nat)) :
    Option (List Nat × List Nat) :=
  r.map fun p => (c :: p.1, p.2)

/-- Append bytes onto the parsed contents of a string-parser result. -/
def appendFst (cs : List Nat) (r : Option (List Nat × List Nat)) :
    Option (List Nat × List Nat) :=
  r.map fun p => (cs ++ p.1, p.2)

/-- Parse the body of a JSON string literal (the opening quote already
consumed), returning the unescaped contents and the remaining input. -/
def parseStrAux : List Nat → Option (List Nat × List Nat)
  | [] => none
  | c :: rest =>
    if c = 0x22 then some ([], rest)
    else if c = 0x5c then
      match rest with
      | [] => none
      | e :: r2 =>
        if e = 0x22 then consFst 0x22 (parseStrAux r2)
        else if e = 0x5c then consFst 0x5c (parseStrAux r2)
        else if e = 0x2f then consFst 0x2f (parseStrAux r2)
        else if e = 0x6e then consFst 0x0a (parseStrAux r2)
        else if e = 0x72 then consFst 0x0d (parseStrAux r2)
        else if e = 0x74 then consFst 0x09 (parseStrAux r2)
        else if e = 0x62 then consFst 0x08 (parseStrAux r2)
        else if e = 0x66 then consFst 0x0c (parseStrAux r2)
        else if e = 0x75 then
          match r2 with
          | h1 :: h2 :: h3 :: h4 :: r3 =>
            match hexVal h1, hexVal h2, hexVal h3, hexVal h4 with
            | some a, some b, some c', some d =>
              appendFst (utf8Encode (a * 4096 + b * 256 + c' * 16 + d))
                (parseStrAux r3)
            | _, _, _, _ => none
          | _ => none
        else none
    else consFst c (parseStrAux rest)

/-- Parse a JSON string literal from its opening quote. -/
def parseJsonString (l : List Nat) : Option (List Nat × List Nat) :=
  match l with
  | c :: rest => if c = 0x22 then parseStrAux rest else none
  | [] => none

theorem hexVal_hexDigit : ∀ n < 16, hexVal (hexDigit n) = some n := by
  decide

theorem parseStrAux_close (rest : List Nat) :
    parseStrAux (0x22 :: rest) = some ([], rest) := by
  rw [parseStrAux.eq_def]
  rfl

theorem parseStrAux_escQuote (rest : List Nat) :
    parseStrAux (0x5c :: 0x22 :: rest) = consFst 0x22 (parseStrAux rest) := by
  rw [parseStrAux.eq_def]
  rfl

theorem parseStrAux_escBackslash (rest : List Nat) :
    parseStrAux (0x5c :: 0x5c :: rest) = consFst 0x5c (parseStrAux rest) := by
  rw [parseStrAux.eq_def]
  rfl

theorem parseStrAux_escNewline (rest : List Nat) :
    parseStrAux (0x5c :: 0x6e :: rest) = consFst 0x0a (parseStrAux rest) := by
  rw [parseStrAux.eq_def]
  rfl

theorem parseStrAux_escReturn (rest : List Nat) :
    parseStrAux (0x5c :: 0x72 :: rest) = consFst 0x0d (parseStrAux rest) := by
  rw [parseStrAux.eq_def]
  rfl

theorem parseStrAux_escTab (rest : List Nat) :
    parseStrAux (0x5c :: 0x74 :: rest) = consFst 0x09 (parseStrAux rest) := by
  rw [parseStrAux.eq_def]
  rfl

theorem parseStrAux_escHex {h1 h2 h3 h4 a b c d : Nat} (rest : List Nat)
    (e1 : hexVal h1 = some a) (e2 : hexVal h2 = some b)
    (e3 : hexVal h3 = some c) (e4 : hexVal h4 = some d) :
    parseStrAux (0x5c :: 0x75 :: h1 :: h2 :: h3 :: h4 :: rest) =
      appendFst (utf8Encode (a * 4096 + b * 256 + c * 16 + d))
        (parseStrAux rest) := by
  rw [parseStrAux.eq_def]
  simp only [e1, e2, e3, e4]
  rfl

theorem parseStrAux_verbatim {c : Nat} (rest : List Nat)
    (hq : ¬c = 0x22) (hb : ¬c = 0x5c) :
    parseStrAux (c :: rest) = consFst c (parseStrAux rest) := by
  rw [parseStrAux.eq_def]
  simp only [if_neg hq, if_neg hb]

set_option maxRecDepth 4000

theorem isCont_bounds {b : Nat} (h : isCont b = true) :
    0x80 ≤ b ∧ b ≤ 0xbf := by
  simpa [isCont] using h

theorem cont1Ok3_bounds {b b1 : Nat} (h : cont1Ok3 b b1 = true) :
    0x80 ≤ b1 ∧ b1 ≤ 0xbf := by
  unfold cont1Ok3 at h
  split_ifs at h <;> simp [isCont] at h <;> omega

theorem cont1Ok4_bounds {b b1 : Nat} (h : cont1Ok4 b b1 = true) :
    0x80 ≤ b1 ∧ b1 ≤ 0xbf := by
  unfold cont1Ok4 at h
  split_ifs at h <;> simp [isCont] at h <;> omega

/-- Parsing the escape of one ASCII byte yields that byte. -/
theorem parseStrAux_escapeByte {b : Nat} (hb : b < 0x80) (l : List Nat) :
    parseStrAux (escapeByte b ++ l) = consFst b (parseStrAux l) := by
  by_cases h1 : b = 0x22
  · subst h1
    simp [escapeByte, parseStrAux_escQuote]
  by_cases h2 : b = 0x5c
  · subst h2
    simp [escapeByte, h1, parseStrAux_escBackslash]
  by_cases h3 : b = 0x0a
  · subst h3
    simp [escapeByte, h1, h2, parseStrAux_escNewline]
  by_cases h4 : b = 0x0d
  · subst h4
    simp [escapeByte, h1, h2, h3, parseStrAux_escReturn]
  by_cases h5 : b = 0x09
  · subst h5
    simp [escapeByte, h1, h2, h3, h4, parseStrAux_escTab]
  by_cases h6 : b < 0x20 ∨ b = 0x3c ∨ b = 0x3e ∨ b = 0x26
  · have ehi := hexVal_hexDigit (b / 16) (by omega)
    have elo := hexVal_hexDigit (b % 16) (by omega)
    have e0 : hexVal 0x30 = some 0 := by decide
    have hstep := parseStrAux_escHex l e0 e0 ehi elo
    have hcp : 0 * 4096 + 0 * 256 + (b / 16) * 16 + b % 16 = b := by omega
    rw [hcp] at hstep
    simp only [escapeByte, h1, h2, h3, h4, h5, if_pos h6, ite_false,
      if_false, List.cons_append, List.append_assoc, List.nil_append,
      if_neg]
    rw [hstep]
    cases parseStrAux l <;> simp [appendFst, consFst, utf8Encode, hb]
  · simp only [escapeByte, h1, h2, h3, h4, h5, h6, ite_false, if_false,
      List.singleton_append]
    exact parseStrAux_verbatim l h1 h2

/-- The string parser inverts the escaper on valid UTF-8: parsing the
escape of `s` followed by a closing quote yields `s` and the rest of the
input. -/
theorem parseStrAux_escapeBytesF :
    ∀ (fuel : Nat) (s : List Nat), s.length ≤ fuel →
      isValidUtf8 s = true → ∀ rest,
      parseStrAux (escapeBytesF fuel s ++ 0x22 :: rest) = some (s, rest) := by
  intro fuel
  induction fuel with
  | zero =>
    intro s hlen _hval rest
    have hnil : s = [] := List.eq_nil_of_length_eq_zero (Nat.le_zero.mp hlen)
    subst hnil
    rw [show escapeBytesF 0 [] = [] from rfl, List.nil_append]
    exact parseStrAux_close rest
  | succ f ih =>
    intro s hlen hval rest
    cases s with
    | nil =>
      rw [show escapeBytesF (f + 1) [] = [] from rfl, List.nil_append]
      exact parseStrAux_close rest
    | cons b t =>
      rw [escapeBytesF.eq_def]
      by_cases hb : b < 0x80
      · have hvt : isValidUtf8 t = true := by
          rw [isValidUtf8.eq_def] at hval
          simpa [if_pos hb] using hval
        have hlt : t.length ≤ f := by
          simp only [List.length_cons] at hlen
          omega
        simp only [if_pos hb]
        rw [List.append_assoc, parseStrAux_escapeByte hb,
          ih t hlt hvt rest]
        simp [consFst]
      · simp only [if_neg hb]
        cases t with
        | nil =>
          rw [isValidUtf8.eq_def] at hval
          simp [if_neg hb] at hval
        | cons b1 t1 =>
          by_cases h2 : (0xc2 <= b && b <= 0xdf) = true
          · rw [isValidUtf8.eq_def] at hval
            simp only [if_neg hb, h2, if_true, ite_true,
              Bool.and_eq_true] at hval
            obtain ⟨hc, hvt1⟩ := hval
            have hbb : 0xc2 ≤ b ∧ b ≤ 0xdf := by simpa using h2
            have hb1 := isCont_bounds hc
            have hlt1 : t1.length ≤ f := by
              simp only [List.length_cons] at hlen
              omega
            simp only [h2, hc, if_true, ite_true]
            rw [List.cons_append, List.cons_append,
              parseStrAux_verbatim _ (by omega) (by omega),
              parseStrAux_verbatim _ (by omega) (by omega),
              ih t1 hlt1 hvt1 rest]
            simp [consFst]
          · cases t1 with
            | nil =>
              rw [isValidUtf8.eq_def] at hval
              simp [if_neg hb, h2] at hval
            | cons b2 t2 =>
              by_cases h3 : (0xe0 <= b && b <= 0xef) = true
              · rw [isValidUtf8.eq_def] at hval
                simp only [if_neg hb, h2, h3, if_true, ite_true, if_false,
                  ite_false] at hval
                have hcs : cont1Ok3 b b1 = true ∧ isCont b2 = true ∧
                    isValidUtf8 t2 = true := by simpa [and_assoc] using hval
                obtain ⟨hc1, hc2, hvt2⟩ := hcs
                have hbb : 0xe0 ≤ b ∧ b ≤ 0xef := by simpa using h3
                have hb1 := cont1Ok3_bounds hc1
                have hb2 := isCont_bounds hc2
                have hlt2 : t2.length ≤ f := by
                  simp only [List.length_cons] at hlen
                  omega
                have iht2 := ih t2 hlt2 hvt2 rest
                simp only [h2, h3, hc1, hc2, if_true, ite_true, if_false,
                  ite_false, Bool.and_self]
                by_cases heq1 :
                    (b - 0xe0) * 4096 + (b1 - 0x80) * 64 + (b2 - 0x80) = 0x2028
                · have hbe : b = 0xe2 := by omega
                  have hb1e : b1 = 0x80 := by omega
                  have hb2e : b2 = 0xa8 := by omega
                  subst hbe hb1e hb2e
                  simp only [heq1, if_true, ite_true]
                  show parseStrAux (0x5c :: 0x75 :: 0x32 :: 0x30 :: 0x32 ::
                    0x38 :: (escapeBytesF f t2 ++ 0x22 :: rest)) = _
                  rw [@parseStrAux_escHex 0x32 0x30 0x32 0x38 2 0 2 8
                    (escapeBytesF f t2 ++ 0x22 :: rest) (by decide)
                    (by decide) (by decide) (by decide), iht2]
                  simp [appendFst, utf8Encode]
                · by_cases heq2 :
                      (b - 0xe0) * 4096 + (b1 - 0x80) * 64 + (b2 - 0x80) = 0x2029
                  · have hbe : b = 0xe2 := by omega
                    have hb1e : b1 = 0x80 := by omega
                    have hb2e : b2 = 0xa9 := by omega
                    subst hbe hb1e hb2e
                    simp only [heq1, heq2, if_true, ite_true, if_false,
                      ite_false]
                    show parseStrAux (0x5c :: 0x75 :: 0x32 :: 0x30 :: 0x32 ::
                      0x39 :: (escapeBytesF f t2 ++ 0x22 :: rest)) = _
                    rw [@parseStrAux_escHex 0x32 0x30 0x32 0x39 2 0 2 9
                      (escapeBytesF f t2 ++ 0x22 :: rest) (by decide)
                      (by decide) (by decide) (by decide), iht2]
                    simp [appendFst, utf8Encode]
                  · simp only [heq1, heq2, if_false, ite_false]
                    show parseStrAux ((b :: b1 :: b2 :: escapeBytesF f t2) ++
                      0x22 :: rest) = some (b :: b1 :: b2 :: t2, rest)
                    rw [List.cons_append, List.cons_append, List.cons_append,
                      parseStrAux_verbatim _ (by omega) (by omega),
                      parseStrAux_verbatim _ (by omega) (by omega),
                      parseStrAux_verbatim _ (by omega) (by omega), iht2]
                    simp [consFst]
              · cases t2 with
                | nil =>
                  rw [isValidUtf8.eq_def] at hval
                  simp [if_neg hb, h2, h3] at hval
                | cons b3 t3 =>
                  by_cases h4 : (0xf0 <= b && b <= 0xf4) = true
                  · rw [isValidUtf8.eq_def] at hval
                    simp only [if_neg hb, h2, h3, h4, if_true, ite_true,
                      if_false, ite_false] at hval
                    have hcs : cont1Ok4 b b1 = true ∧ isCont b2 = true ∧
                        isCont b3 = true ∧ isValidUtf8 t3 = true := by
                      simpa [and_assoc] using hval
                    obtain ⟨hc1, hc2, hc3, hvt3⟩ := hcs
                    have hbb : 0xf0 ≤ b ∧ b ≤ 0xf4 := by simpa using h4
                    have hb1 := cont1Ok4_bounds hc1
                    have hb2 := isCont_bounds hc2
                    have hb3 := isCont_bounds hc3
                    have hlt3 : t3.length ≤ f := by
                      simp only [List.length_cons] at hlen
                      omega
                    simp only [h2, h3, h4, hc1, hc2, hc3, if_true, ite_true,
                      if_false, ite_false, Bool.and_self]
                    show parseStrAux ((b :: b1 :: b2 :: b3 ::
                      escapeBytesF f t3) ++ 0x22 :: rest) =
                      some (b :: b1 :: b2 :: b3 :: t3, rest)
                    rw [List.cons_append, List.cons_append, List.cons_append,
                      List.cons_append,
                      parseStrAux_verbatim _ (by omega) (by omega),
                      parseStrAux_verbatim _ (by omega) (by omega),
                      parseStrAux_verbatim _ (by omega) (by omega),
                      parseStrAux_verbatim _ (by omega) (by omega),
                      ih t3 hlt3 hvt3 rest]
                    simp [consFst]
                  · rw [isValidUtf8.eq_def] at hval
                    simp [if_neg hb, h2, h3, h4] at hval

/-- The string parser inverts the escaper on valid UTF-8. -/
theorem parseStrAux_escape {s : List Nat} (hs : isValidUtf8 s = true)
    (rest : List Nat) :
    parseStrAux (escapeBytes s ++ 0x22 :: rest) = some (s, rest) :=
  parseStrAux_escapeBytesF s.length s le_rfl hs rest

theorem parseJsonString_quote {s : List Nat} (hs : isValidUtf8 s = true)
    (rest : List Nat) :
    parseJsonString (jsonQuote s ++ rest) = some (s, rest) := by
  simp [jsonQuote, parseJsonString, List.append_assoc, parseStrAux_escape hs]

/-- Serialized fields of a JSON object, comma separated
(`"k1":"v1","k2":"v2",...`). -/
def jsonFields : List (List Nat × List Nat) → List Nat
  | [] => []
  | [(k, v)] => jsonQuote k ++ 0x3a :: jsonQuote v
  | (k, v) :: rest => jsonQuote k ++ 0x3a :: (jsonQuote v ++ 0x2c :: jsonFields rest)

/-- `json.Marshal` of a flat struct with string fields, given its
field-name/value pairs in declaration order. -/
def jsonObjectOf (fs : List (List Nat × List Nat)) : List Nat :=
  0x7b :: jsonFields fs ++ [0x7d]

/-- Parse the fields of a JSON object (opening brace consumed), consuming
the closing brace; the fuel only bounds the number of fields and is
instantiated with the input length. -/
def parseFieldsF : Nat → List Nat → Option (List (List Nat × List Nat) × List Nat)
  | 0, _ => none
  | fuel + 1, l =>
    match parseJsonString l with
    | none => none
    | some (k, r1) =>
      match r1 with
      | [] => none
      | c :: r2 =>
        if c = 0x3a then
          match parseJsonString r2 with
          | none => none
          | some (v, r3) =>
            match r3 with
            | [] => none
            | c' :: r4 =>
              if c' = 0x2c then
                (parseFieldsF fuel r4).map fun p => ((k, v) :: p.1, p.2)
              else if c' = 0x7d then some ([(k, v)], r4)
              else none
        else none

/-- Reject leftover input after the closing brace (`json.Unmarshal` errors
on trailing data). -/
def requireConsumed (p : List (List Nat × List Nat) × List Nat) :
    Option (List (List Nat × List Nat)) :=
  if p.2 = [] then some p.1 else none

/-- Parse a flat string-field JSON object (the fragment of JSON occupied by
the backend's structs); whole input must be consumed, as `json.Unmarshal`
rejects trailing data. -/
def parseObject (l : List Nat) : Option (List (List Nat × List Nat)) :=
  match l with
  | 0x7b :: rest =>
    if rest = [0x7d] then some []
    else (parseFieldsF rest.length rest).bind requireConsumed
  | _ => none

/-- ASCII lower-casing of a byte (Go's case-insensitive field matching). -/
def foldByte (b : Nat) : Nat :=
  if 0x41 ≤ b ∧ b ≤ 0x5a then b + 32 else b

/-- Go `json.Unmarshal` field matching: exact name or ASCII
case-insensitive. -/
def keyMatches (k target : List Nat) : Bool :=
  k == target || k.map foldByte == target.map foldByte

/-- The value assigned to a struct field: the last object entry whose key
matches (Go processes entries in order, later keys overwrite earlier
ones). -/
def lookupJsonKey (fs : List (List Nat × List Nat)) (target : List Nat) :
    Option (List Nat) :=
  fs.foldl (fun acc kv => if keyMatches kv.1 target then some kv.2 else acc) none

theorem validBytes_escapeByte {b : Nat} (hb : b < 256) :
    validBytes (escapeByte b) := by
  unfold escapeByte
  split_ifs with h1 h2 h3 h4 h5 h6
  · decide
  · decide
  · decide
  · decide
  · decide
  · intro x hx
    have d1 : hexDigit (b / 16) < 256 := by unfold hexDigit; split <;> omega
    have d2 : hexDigit (b % 16) < 256 := by unfold hexDigit; split <;> omega
    simp only [List.mem_cons, List.not_mem_nil, or_false] at hx
    rcases hx with rfl | rfl | rfl | rfl | rfl | rfl <;> omega
  · intro x hx
    simp only [List.mem_cons, List.not_mem_nil, or_false] at hx
    subst hx
    exact hb

theorem validBytes_escapeBytesF :
    ∀ (fuel : Nat) (s : List Nat), validBytes (escapeBytesF fuel s) := by
  intro fuel
  induction fuel with
  | zero =>
    intro s
    cases s <;> (intro x hx; rw [escapeBytesF.eq_def] at hx; simp at hx)
  | succ f ih =>
    intro s
    cases s with
    | nil => intro x hx; rw [escapeBytesF.eq_def] at hx; simp at hx
    | cons b t =>
      rw [escapeBytesF.eq_def]
      by_cases hb : b < 0x80
      · simp only [if_pos hb]
        exact validBytes_append (validBytes_escapeByte (by omega)) (ih t)
      · simp only [if_neg hb]
        cases t with
        | nil =>
          show validBytes (ascii "\\ufffd")
          decide
        | cons b1 t1 =>
          by_cases h2 : (0xc2 <= b && b <= 0xdf) = true
          · have hbb : 0xc2 ≤ b ∧ b ≤ 0xdf := by simpa using h2
            by_cases hc : isCont b1 = true
            · have hb1 := isCont_bounds hc
              simp only [h2, hc, if_true, ite_true]
              exact validBytes_cons (by omega)
                (validBytes_cons (by omega) (ih t1))
            · simp only [h2, hc, if_true, ite_true, if_false, ite_false,
                Bool.false_eq_true]
              exact validBytes_append (by decide) (ih (b1 :: t1))
          · cases t1 with
            | nil =>
              simp only [h2, if_false, ite_false, Bool.false_eq_true]
              exact validBytes_append (by decide) (ih [b1])
            | cons b2 t2 =>
              by_cases h3 : (0xe0 <= b && b <= 0xef) = true
              · have hbb : 0xe0 ≤ b ∧ b ≤ 0xef := by simpa using h3
                by_cases hcc : (cont1Ok3 b b1 && isCont b2) = true
                · have hc12 : cont1Ok3 b b1 = true ∧ isCont b2 = true := by
                    simpa using hcc
                  have hb1 := cont1Ok3_bounds hc12.1
                  have hb2 := isCont_bounds hc12.2
                  simp only [h2, h3, hcc, if_true, ite_true, if_false,
                    ite_false, Bool.false_eq_true]
                  by_cases heq1 : (b - 0xe0) * 4096 + (b1 - 0x80) * 64 +
                      (b2 - 0x80) = 0x2028
                  · simp only [heq1, if_true, ite_true]
                    exact validBytes_append (by decide) (ih t2)
                  · by_cases heq2 : (b - 0xe0) * 4096 + (b1 - 0x80) * 64 +
                        (b2 - 0x80) = 0x2029
                    · simp only [heq1, heq2, if_true, ite_true, if_false,
                        ite_false]
                      exact validBytes_append (by decide) (ih t2)
                    · simp only [heq1, heq2, if_false, ite_false]
                      exact validBytes_cons (by omega) (validBytes_cons
                        (by omega) (validBytes_cons (by omega) (ih t2)))
                · simp only [h2, h3, hcc, if_true, ite_true, if_false,
                    ite_false, Bool.false_eq_true]
                  exact validBytes_append (by decide) (ih (b1 :: b2 :: t2))
              · cases t2 with
                | nil =>
                  simp only [h2, h3, if_false, ite_false, Bool.false_eq_true]
                  exact validBytes_append (by decide) (ih [b1, b2])
                | cons b3 t3 =>
                  by_cases h4 : (0xf0 <= b && b <= 0xf4) = true
                  · have hbb : 0xf0 ≤ b ∧ b ≤ 0xf4 := by simpa using h4
                    by_cases hcc : (cont1Ok4 b b1 && isCont b2 && isCont b3) = true
                    · have hc123 : cont1Ok4 b b1 = true ∧ isCont b2 = true ∧
                          isCont b3 = true := by
                        simpa [and_assoc] using hcc
                      have hb1 := cont1Ok4_bounds hc123.1
                      have hb2 := isCont_bounds hc123.2.1
                      have hb3 := isCont_bounds hc123.2.2
                      simp only [h2, h3, h4, hcc, if_true, ite_true,
                        if_false, ite_false, Bool.false_eq_true]
                      exact validBytes_cons (by omega) (validBytes_cons
                        (by omega) (validBytes_cons (by omega)
                          (validBytes_cons (by omega) (ih t3))))
                    · simp only [h2, h3, h4, hcc, if_true, ite_true,
                        if_false, ite_false, Bool.false_eq_true]
                      exact validBytes_append (by decide)
                        (ih (b1 :: b2 :: b3 :: t3))
                  · simp only [h2, h3, h4, if_false, ite_false,
                      Bool.false_eq_true]
                    exact validBytes_append (by decide)
                      (ih (b1 :: b2 :: b3 :: t3))

theorem validBytes_escapeBytes (s : List Nat) :
    validBytes (escapeBytes s) :=
  validBytes_escapeBytesF s.length s

theorem validBytes_jsonQuote (s : List Nat) :
    validBytes (jsonQuote s) := by
  unfold jsonQuote
  exact validBytes_cons (by omega)
    (validBytes_append (validBytes_escapeBytes s) (by decide))


theorem parseFieldsF_last {k v : List Nat} (hk : isValidUtf8 k = true)
    (hv : isValidUtf8 v = true) (f : Nat) (rest : List Nat) :
    parseFieldsF (f + 1) (jsonQuote k ++ 0x3a :: (jsonQuote v ++ 0x7d :: rest)) =
      some ([(k, v)], rest) := by
  rw [parseFieldsF.eq_def]
  simp [parseJsonString_quote hk, parseJsonString_quote hv]

theorem parseFieldsF_cons {k v : List Nat} (hk : isValidUtf8 k = true)
    (hv : isValidUtf8 v = true) (f : Nat) (rest : List Nat) :
    parseFieldsF (f + 1) (jsonQuote k ++ 0x3a :: (jsonQuote v ++ 0x2c :: rest)) =
      (parseFieldsF f rest).map fun p => ((k, v) :: p.1, p.2) := by
  rw [parseFieldsF.eq_def]
  simp [parseJsonString_quote hk, parseJsonString_quote hv]

/-- Parsing the marshalled form of a two-string-field struct recovers its
field list. -/
theorem parseObject_pair {k1 v1 k2 v2 : List Nat}
    (hk1 : isValidUtf8 k1 = true) (hv1 : isValidUtf8 v1 = true)
    (hk2 : isValidUtf8 k2 = true) (hv2 : isValidUtf8 v2 = true) :
    parseObject (jsonObjectOf [(k1, v1), (k2, v2)]) =
      some [(k1, v1), (k2, v2)] := by
  have hshape : jsonFields [(k1, v1), (k2, v2)] ++ [0x7d] =
      jsonQuote k1 ++ 0x3a :: (jsonQuote v1 ++ 0x2c ::
        (jsonQuote k2 ++ 0x3a :: (jsonQuote v2 ++ [0x7d]))) := by
    simp [jsonFields, List.append_assoc]
  have hne : jsonFields [(k1, v1), (k2, v2)] ++ [0x7d] ≠ [0x7d] := by
    rw [hshape]
    simp [jsonQuote]
  obtain ⟨m, hm⟩ : ∃ m, (jsonFields [(k1, v1), (k2, v2)] ++ [0x7d]).length =
      m + 2 := by
    refine ⟨(jsonFields [(k1, v1), (k2, v2)] ++ [0x7d]).length - 2, ?_⟩
    rw [hshape]
    simp [jsonQuote]
    omega
  have hbrace : ∀ rest : List Nat, parseObject (0x7b :: rest) =
      if rest = [0x7d] then some []
      else (parseFieldsF rest.length rest).bind requireConsumed := by
    intro rest
    rw [parseObject.eq_def]
  rw [jsonObjectOf, List.cons_append, hbrace, if_neg hne, hm, hshape]
  rw [parseFieldsF_cons hk1 hv1, parseFieldsF_last hk2 hv2]
  simp [requireConsumed]

/-! ## The `resources` package structs (`AuthCode`, `AuthResponse`)

These structs live in `contrib/example-backend/kubernetes/resources`, which
is not part of the provided sources; their field sets are taken from their
uses in the handlers, and the JSON keys (exported Go field names, no tags)
from the spec's concrete scenarios (§8: `state` decodes to
`{"RedirectURL":...,"SessionID":...}`, `auth_response` to an object with
`SessionID`/`Export` keys). -/

/-- The opaque `state` payload built by `handleAuthorize` and decoded by
`handleCallback` (spec: HandshakeRequest). -/
structure AuthCode where
  RedirectURL : List Nat
  SessionID : List Nat
deriving DecidableEq

/-- `json.Marshal` of an `AuthCode`. -/
def authCodeMarshal (c : AuthCode) : List Nat :=
  jsonObjectOf [(ascii "RedirectURL", c.RedirectURL),
    (ascii "SessionID", c.SessionID)]

/-- `json.Unmarshal` of bytes into an `AuthCode` (missing fields keep Go's
zero value, the empty string). -/
def authCodeUnmarshal (bs : List Nat) : Option AuthCode :=
  match parseObject bs with
  | none => none
  | some fs =>
    some ⟨(lookupJsonKey fs (ascii "RedirectURL")).getD [],
      (lookupJsonKey fs (ascii "SessionID")).getD []⟩

theorem validBytes_authCodeMarshal (c : AuthCode) :
    validBytes (authCodeMarshal c) := by
  unfold authCodeMarshal jsonObjectOf
  refine validBytes_cons (by omega) (validBytes_append ?_ (by decide))
  simp only [jsonFields]
  refine validBytes_append (validBytes_jsonQuote _)
    (validBytes_cons (by omega) (validBytes_append (validBytes_jsonQuote _)
      (validBytes_cons (by omega) (validBytes_append
        (validBytes_jsonQuote _)
        (validBytes_cons (by omega) (validBytes_jsonQuote _))))))

/-- Unmarshalling a marshalled `AuthCode` recovers it. -/
theorem authCodeUnmarshal_marshal {c : AuthCode}
    (hu : isValidUtf8 c.RedirectURL = true)
    (hs : isValidUtf8 c.SessionID = true) :
    authCodeUnmarshal (authCodeMarshal c) = some c := by
  unfold authCodeUnmarshal authCodeMarshal
  rw [parseObject_pair (by decide) hu (by decide) hs]
  have h1 : keyMatches (ascii "RedirectURL") (ascii "RedirectURL") = true := by
    decide
  have h2 : keyMatches (ascii "SessionID") (ascii "RedirectURL") = false := by
    decide
  have h3 : keyMatches (ascii "RedirectURL") (ascii "SessionID") = false := by
    decide
  have h4 : keyMatches (ascii "SessionID") (ascii "SessionID") = true := by
    decide
  simp [lookupJsonKey, h1, h2, h3, h4]

/-! ## Claim C1: the `state` parameter round trip -/

/-- `handleAuthorize`'s encoding of the auth code into the `state`
parameter (options.go lines 255-262): `json.Marshal` then
`base64.StdEncoding.EncodeToString`. -/
def encodeAuthState (c : AuthCode) : List Nat :=
  b64encode (authCodeMarshal c)

/-- `handleCallback`'s decoding of the `state` parameter (options.go lines
298-314): `base64.StdEncoding.DecodeString` then `json.Unmarshal`. -/
def decodeAuthState (l : List Nat) : Option AuthCode :=
  (b64decode l).bind authCodeUnmarshal

/-- C1 (amended): for every HandshakeRequest (`AuthCode`) whose non-empty
`redirectURL` and `sessionID` are valid UTF-8, encoding it as the `state`
parameter the way the Authorization Initiator does (JSON marshal, then
standard base64) and decoding it the way the Callback Processor does
(standard base64 decode, then JSON unmarshal) yields an identical
HandshakeRequest.  For ill-formed UTF-8 the round trip is not the
identity, because `json.Marshal` substitutes U+FFFD — see
`authState_roundtrip_invalid_utf8`. -/
theorem authState_roundtrip (c : AuthCode)
    (hu : isValidUtf8 c.RedirectURL = true)
    (hs : isValidUtf8 c.SessionID = true) (hne1 : c.RedirectURL ≠ [])
    (hne2 : c.SessionID ≠ []) :
    decodeAuthState (encodeAuthState c) = some c := by
  unfold decodeAuthState encodeAuthState
  rw [b64decode_b64encode (validBytes_authCodeMarshal c),
    Option.some_bind, authCodeUnmarshal_marshal hu hs]

/-- C1 counterexample: a HandshakeRequest whose redirect URL is the single
invalid-UTF-8 byte `0xff` (reachable, e.g. `/authorize?u=%FF&s=abc123`) is
marshalled with U+FFFD substituted, so the Callback Processor decodes a
different HandshakeRequest: the round-trip law fails as universally
stated. -/
theorem authState_roundtrip_invalid_utf8 :
    ([0xff] : List Nat) ≠ [] ∧ ascii "abc123" ≠ [] ∧
      validBytes [0xff] ∧ validBytes (ascii "abc123") ∧
      decodeAuthState (encodeAuthState ⟨[0xff], ascii "abc123"⟩) =
        some ⟨[0xef, 0xbf, 0xbd], ascii "abc123"⟩ ∧
      decodeAuthState (encodeAuthState ⟨[0xff], ascii "abc123"⟩) ≠
        some ⟨[0xff], ascii "abc123"⟩ := by
  decide

/-- Witness for C1 at the spec's concrete scenario
(`u=https://consumer.example/cb`, `s=abc123`). -/
theorem authState_roundtrip_witness :
    isValidUtf8 (ascii "https://consumer.example/cb") = true ∧
      isValidUtf8 (ascii "abc123") = true ∧
      ascii "https://consumer.example/cb" ≠ [] ∧ ascii "abc123" ≠ [] ∧
      decodeAuthState (encodeAuthState
        ⟨ascii "https://consumer.example/cb", ascii "abc123"⟩) =
        some ⟨ascii "https://consumer.example/cb", ascii "abc123"⟩ :=
  ⟨by decide, by decide, by decide, by decide,
    authState_roundtrip _ (by decide) (by decide) (by decide) (by decide)⟩

/-! ## Claim C10: `parseJWT` (options.go lines 267-277) -/

/-- ASCII decimal digits of a number (Go's `%d`). -/
def natDigits (n : Nat) : List Nat :=
  (Nat.toDigits 10 n).map Char.toNat

/-- `parseJWT`: split on `.`, require at least two parts (the error message
nevertheless speaks of three), then base64url-decode the second part. -/
def parseJWT (p : List Nat) : Except (List Nat) (List Nat) :=
  let parts := p.splitOn 0x2e
  if parts.length < 2 then
    .error (ascii "oidc: malformed jwt, expected 3 parts got " ++
      natDigits parts.length)
  else
    match rawB64UrlDecode ((parts.drop 1).headD []) with
    | none => .error (ascii "oidc: malformed jwt payload")
    | some payload => .ok payload

/-- C10: `parseJWT` fails exactly when the input has fewer than two
dot-separated parts or the second part is not valid raw base64url; and the
error message for a dotless input claims three parts were expected (so a
two-segment input with a decodable second segment is accepted despite the
message). -/
theorem parseJWT_errors (p : List Nat) :
    ((∃ e, parseJWT p = .error e) ↔
      ((p.splitOn 0x2e).length < 2 ∨
        rawB64UrlDecode (((p.splitOn 0x2e).drop 1).headD []) = none)) ∧
    ((p.splitOn 0x2e).length < 2 →
      parseJWT p = .error (ascii "oidc: malformed jwt, expected 3 parts got " ++
        natDigits (p.splitOn 0x2e).length)) := by
  unfold parseJWT
  by_cases hlen : (p.splitOn 0x2e).length < 2
  · simp [hlen]
  · cases hdec : rawB64UrlDecode ((p.splitOn 0x2e)[1]?.getD []) with
    | none => simp [hlen, hdec]
    | some payload => simp [hlen, hdec]

/-- Witness for C10: a dotless input is rejected, a two-segment input with
decodable payload is accepted. -/
theorem parseJWT_errors_witness :
    (∃ e, parseJWT (ascii "onlyonepart") = .error e) ∧
      ¬(∃ e, parseJWT (ascii "h.AAAA") = .error e) := by
  constructor
  · exact (parseJWT_errors (ascii "onlyonepart")).1.mpr (by decide)
  · intro h
    exact absurd ((parseJWT_errors (ascii "h.AAAA")).1.mp h) (by decide)

/-! ## HTTP handler layer

Handler inputs are the request values the Go code reads (query/form
parameters, the cookie jar) and its external collaborators as function
parameters (identity-provider `Exchange`, the credential minter
`kubeManager.HandleResources`, the CRD lister and template renderer).
Handler outputs are the observable response: status/body or redirect
location, plus the cookie set (callback) and whether a credential was
minted (bind). -/

/-- An HTTP response as the handlers produce it: `http.Error` with a status
and body, a redirect, or rendered content. -/
inductive HResp where
  | err (status : Nat) (body : List Nat)
  | redirect (status : Nat) (location : List Nat)
  | content (status : Nat) (body : List Nat)
deriving DecidableEq

/-- Whether a response is an `http.Error` response. -/
def HResp.isErr : HResp → Bool
  | .err _ _ => true
  | _ => false

/-- The token returned by the identity provider's `Exchange`
(`golang.org/x/oauth2`): access/refresh tokens, expiry, and the `id_token`
extra field when present as a string. -/
structure Token where
  accessToken : List Nat
  refreshToken : List Nat
  expiry : Nat
  idToken : Option (List Nat)
deriving DecidableEq

/-- `cookie.SessionState` (contrib/example-backend/cookie): the fields
`handleCallback` stores and `handleBind` reads. -/
structure SessionState where
  createdAt : Nat
  expiresOn : Nat
  accessToken : List Nat
  idToken : List Nat
  refreshToken : List Nat
  redirectURL : List Nat
  sessionID : List Nat
deriving DecidableEq

/-- An HTTP cookie as set by the callback handler: name, value, lifetime. -/
structure Cookie where
  name : List Nat
  value : List Nat
  maxAgeSeconds : Nat
deriving DecidableEq

/-- Modelled from the spec: `cookie.MakeCookie`
(contrib/example-backend/cookie, not among the provided sources) builds the
HTTP cookie from the name, encoded value and TTL that `handleCallback`
passes it (spec §6: "Cookie: name = fixed prefix + session id; value =
encoded SessionState; TTL = 1 hour fixed"). -/
def makeCookie (name value : List Nat) (maxAgeSeconds : Nat) : Cookie :=
  ⟨name, value, maxAgeSeconds⟩

/-- Digits `0`-`9`. -/
def isDigitByte (b : Nat) : Bool :=
  0x30 ≤ b && b ≤ 0x39

/-- Value of a decimal digit string. -/
def digitsToNat (ds : List Nat) : Nat :=
  ds.foldl (fun acc d => acc * 10 + (d - 0x30)) 0

/-- Read a decimal number followed by the terminator byte `t`. -/
def readNum (t : Nat) (l : List Nat) : Option (Nat × List Nat) :=
  let ds := l.takeWhile isDigitByte
  let r := l.dropWhile isDigitByte
  if ds = [] then none
  else
    match r with
    | c :: r2 => if c = t then some (digitsToNat ds, r2) else none
    | [] => none

/-- Read a length-prefixed byte string (`<len>:<bytes>`). -/
def readLenPrefixed (l : List Nat) : Option (List Nat × List Nat) :=
  match readNum 0x3a l with
  | none => none
  | some (n, r) => if n ≤ r.length then some (r.take n, r.drop n) else none

/-- Modelled from the spec: `cookie.SessionState.Encode`
(contrib/example-backend/cookie, not among the provided sources) is
specified only as an opaque session codec whose encode→decode round-trips
byte-for-byte (spec §8); realized here as timestamps plus length-prefixed
fields. -/
def sessionEncode (st : SessionState) : List Nat :=
  natDigits st.createdAt ++ 0x3b :: (natDigits st.expiresOn ++ 0x3b ::
    ((natDigits st.accessToken.length ++ 0x3a :: st.accessToken) ++
     (natDigits st.idToken.length ++ 0x3a :: st.idToken) ++
     (natDigits st.refreshToken.length ++ 0x3a :: st.refreshToken) ++
     (natDigits st.redirectURL.length ++ 0x3a :: st.redirectURL) ++
     (natDigits st.sessionID.length ++ 0x3a :: st.sessionID)))

/-- Modelled from the spec: `cookie.Decode`, inverse of `sessionEncode`. -/
def sessionDecode (l : List Nat) : Option SessionState := do
  let (ca, r1) ← readNum 0x3b l
  let (eo, r2) ← readNum 0x3b r1
  let (atk, r3) ← readLenPrefixed r2
  let (idt, r4) ← readLenPrefixed r3
  let (rft, r5) ← readLenPrefixed r4
  let (rdu, r6) ← readLenPrefixed r5
  let (sid, r7) ← readLenPrefixed r6
  if r7 = [] then some ⟨ca, eo, atk, idt, rft, rdu, sid⟩ else none

/-- `handleAuthorize` (options.go lines 241-265): reject an empty `u` or
`s` query parameter with 400, otherwise redirect (302) to the identity
provider's auth-code URL carrying the encoded state.  The oauth2
`AuthCodeURL` of the external identity-provider client is the
`authCodeURL` parameter. -/
def handleAuthorize (authCodeURL : List Nat → List Nat)
    (u s : List Nat) : HResp :=
  if u = [] ∨ s = [] then
    .err 400 (ascii "missing redirect_url or session_id")
  else
    .redirect 302 (authCodeURL (encodeAuthState ⟨u, s⟩))

/-- The request values `handleCallback` reads: form and query parameters,
plus the `%q`-rendering of the form used in the "no code" message body. -/
structure CallbackRequest where
  formError : List Nat
  formErrorDescription : List Nat
  formCode : List Nat
  queryCode : List Nat
  formState : List Nat
  queryState : List Nat
  formRepr : List Nat
deriving DecidableEq

/-- The observable outcome of `handleCallback`: the response and the
session cookie set, if any. -/
structure CallbackResult where
  resp : HResp
  cookie : Option Cookie
deriving DecidableEq

/-- The form value, falling back to the query value when empty (the
`if code == "" { code = r.URL.Query().Get(...) }` pattern of
`handleCallback`). -/
def firstNonEmpty (a b : List Nat) : List Nat :=
  if a ≠ [] then a else b

/-- `handleCallback` (options.go lines 280-368).  The token exchange with
the identity provider is the `exchange` parameter; `now` is the wall clock
read for `CreatedAt`.  The bodies of the two decode-failure client errors
are the Go error strings, modelled as fixed tags. -/
def handleCallback (exchange : List Nat → Except (List Nat) Token)
    (now : Nat) (r : CallbackRequest) : CallbackResult :=
  if r.formError ≠ [] then
    ⟨.err 400 (r.formError ++ ascii ": " ++ r.formErrorDescription), none⟩
  else
    let code := firstNonEmpty r.formCode r.queryCode
    if code = [] then
      ⟨.err 400 (ascii "no code in request: " ++ r.formRepr), none⟩
    else
      let state := firstNonEmpty r.formState r.queryState
      match b64decode state with
      | none => ⟨.err 400 (ascii "illegal base64 data"), none⟩
      | some decoded =>
        match authCodeUnmarshal decoded with
        | none => ⟨.err 400 (ascii "invalid character in authCode"), none⟩
        | some authCode =>
          match exchange code with
          | .error _ => ⟨.err 500 (ascii "internal error"), none⟩
          | .ok token =>
            match token.idToken with
            | none => ⟨.err 500 (ascii "internal error"), none⟩
            | some jwtStr =>
              match parseJWT jwtStr with
              | .error _ => ⟨.err 500 (ascii "internal error"), none⟩
              | .ok jwt =>
                ⟨.redirect 302 (ascii "/resources?s=" ++ authCode.SessionID),
                  some (makeCookie (ascii "kube-bind-" ++ authCode.SessionID)
                    (sessionEncode ⟨now, token.expiry, token.accessToken,
                      jwt, token.refreshToken, authCode.RedirectURL,
                      authCode.SessionID⟩) 3600)⟩

/-- `strings.SplitN(s, ".", 2)`: at most two parts, split at the first
dot. -/
def splitN2Dot (s : List Nat) : List (List Nat) :=
  if s.contains 0x2e then
    [s.takeWhile (fun b => b != 0x2e), (s.dropWhile (fun b => b != 0x2e)).tail]
  else [s]

/-- `handleResources` (options.go lines 370-406).  The CRD lister and the
sorted template rendering are abstracted into the `listing` and `render`
parameters.  `none` models the Go runtime panic (`index out of range` on
`parts[1]`) in the auto-select branch when the override has no dot; every
HTTP response is `some`. -/
def handleResources (testingAutoSelect queryS : List Nat)
    (listing : Except (List Nat) (List (List Nat)))
    (render : List Nat → List (List Nat) → List Nat) : Option HResp :=
  if testingAutoSelect ≠ [] then
    match splitN2Dot testingAutoSelect with
    | p0 :: p1 :: _ =>
      some (.redirect 302 (ascii "/resources/" ++ p0 ++ ascii "/" ++ p1))
    | _ => none
  else
    match listing with
    | .error _ => some (.err 500 (ascii "internal error"))
    | .ok crds => some (.content 200 (render queryS crds))

/-! ## net/url abstraction for the bind redirect

`handleBind` runs `url.Parse(state.RedirectURL)`, adds `auth_response` to
the parsed query and re-serializes.  The model keeps the aspects the
handler depends on: `url.Parse` rejects ASCII control characters (returning
an error), otherwise the URL is split at the first `?`; `Values.Encode`
emits the parameters sorted by key with Go's query escaping. -/

/-- Uppercase hex digit byte (Go's percent-encoding uses uppercase). -/
def hexDigitUpper (n : Nat) : Nat :=
  if n < 10 then 0x30 + n else 0x37 + n

/-- Bytes `url.QueryEscape` leaves unescaped in query values. -/
def isUnreservedQueryByte (b : Nat) : Bool :=
  (0x41 ≤ b && b ≤ 0x5a) || (0x61 ≤ b && b ≤ 0x7a) ||
    (0x30 ≤ b && b ≤ 0x39) || b == 0x2d || b == 0x5f || b == 0x2e ||
    b == 0x7e

/-- `url.QueryEscape` of one byte: unreserved bytes verbatim, space as `+`,
the rest percent-encoded. -/
def queryEscapeByte (b : Nat) : List Nat :=
  if isUnreservedQueryByte b then [b]
  else if b = 0x20 then [0x2b]
  else [0x25, hexDigitUpper (b / 16), hexDigitUpper (b % 16)]

/-- `url.QueryEscape` of a string. -/
def queryEscape : List Nat → List Nat
  | [] => []
  | b :: t => queryEscapeByte b ++ queryEscape t

/-- One `key=value` query item (value after the first `=`). -/
def parseQueryItem (item : List Nat) : List Nat × List Nat :=
  (item.takeWhile (fun c => c != 0x3d),
    (item.dropWhile (fun c => c != 0x3d)).tail)

/-- The query parameters of a raw query string (split on `&`; empty
segments skipped; percent-unescaping abstracted away). -/
def parseQuery (q : List Nat) : List (List Nat × List Nat) :=
  ((q.splitOn 0x26).filter (fun seg => seg ≠ [])).map parseQueryItem

/-- A parsed URL: everything before the first `?`, and the query
parameters. -/
structure GoURL where
  base : List Nat
  query : List (List Nat × List Nat)
deriving DecidableEq

/-- `url.Parse` rejects ASCII control characters (and DEL we fold into the
same class of invalid input). -/
def hasCtlByte (s : List Nat) : Bool :=
  s.any fun b => b < 0x20 || b == 0x7f

/-- Abstraction of `url.Parse`: an error (none) on control characters,
otherwise the base/query split. -/
def urlParse (s : List Nat) : Option GoURL :=
  if hasCtlByte s then none
  else if s.contains 0x3f then
    some ⟨s.takeWhile (fun b => b != 0x3f),
      parseQuery ((s.dropWhile (fun b => b != 0x3f)).tail)⟩
  else some ⟨s, []⟩

/-- Lexicographic byte-list comparison for `Values.Encode`'s key sort. -/
def lexLeBytes : List Nat → List Nat → Bool
  | [], _ => true
  | _ :: _, [] => false
  | x :: xs, y :: ys =>
    if x < y then true else if y < x then false else lexLeBytes xs ys

/-- Insert a parameter into a key-sorted parameter list. -/
def insertByKey (p : List Nat × List Nat) :
    List (List Nat × List Nat) → List (List Nat × List Nat)
  | [] => [p]
  | q :: t => if lexLeBytes p.1 q.1 then p :: q :: t else q :: insertByKey p t

/-- Sort parameters by key (`Values.Encode` sorts its keys). -/
def sortByKey : List (List Nat × List Nat) → List (List Nat × List Nat)
  | [] => []
  | p :: t => insertByKey p (sortByKey t)

/-- Join query items with `&`. -/
def joinAmp : List (List Nat) → List Nat
  | [] => []
  | [x] => x
  | x :: t => x ++ 0x26 :: joinAmp t

/-- `url.Values.Encode`: sorted, escaped `k=v` pairs joined by `&`. -/
def encodeQuery (q : List (List Nat × List Nat)) : List Nat :=
  joinAmp ((sortByKey q).map fun kv =>
    queryEscape kv.1 ++ 0x3d :: queryEscape kv.2)

/-- `URL.String()` after the query was re-encoded. -/
def urlString (u : GoURL) : List Nat :=
  if u.query = [] then u.base else u.base ++ 0x3f :: encodeQuery u.query

/-! ## `handleBind` and the provider-side reconciler naming -/

/-- The identity claims `handleBind` unmarshals from the stored ID-token
payload (`sub`, `iss`). -/
structure IdentityClaims where
  subject : List Nat
  issuer : List Nat
deriving DecidableEq

/-- `json.Unmarshal` of the ID-token payload into the anonymous
`{Subject "sub"; Issuer "iss"}` struct of `handleBind`. -/
def idClaimsUnmarshal (bs : List Nat) : Option IdentityClaims :=
  match parseObject bs with
  | none => none
  | some fs =>
    some ⟨(lookupJsonKey fs (ascii "sub")).getD [],
      (lookupJsonKey fs (ascii "iss")).getD []⟩

/-- `resources.AuthResponse` (spec: CredentialResponse), with the fields
`handleBind` fills (options.go lines 447-454). -/
structure AuthResponse where
  SessionID : List Nat
  ID : List Nat
  Kubeconfig : List Nat
  Group : List Nat
  Resource : List Nat
  Export : List Nat
deriving DecidableEq

/-- `json.Marshal` of an `AuthResponse`; the `[]byte` kubeconfig is
marshalled as a base64 string, as `encoding/json` does. -/
def authResponseMarshal (a : AuthResponse) : List Nat :=
  jsonObjectOf [(ascii "SessionID", a.SessionID), (ascii "ID", a.ID),
    (ascii "Kubeconfig", b64encode a.Kubeconfig), (ascii "Group", a.Group),
    (ascii "Resource", a.Resource), (ascii "Export", a.Export)]

/-- The `AuthResponse` `handleBind` constructs (options.go lines
447-454). -/
def bindAuthResponse (state : SessionState) (claims : IdentityClaims)
    (kfg group resource : List Nat) : AuthResponse :=
  ⟨state.sessionID, claims.issuer ++ ascii "/" ++ claims.subject, kfg,
    group, resource, resource ++ ascii "." ++ group⟩

/-- `r.Cookie(name)`: the first cookie with the given name, if any. -/
def lookupCookie (jar : List (List Nat × List Nat)) (name : List Nat) :
    Option (List Nat) :=
  match jar with
  | [] => none
  | kv :: t => if kv.1 = name then some kv.2 else lookupCookie t name

/-- The observable outcome of `handleBind`: the response, and whether the
credential minter ran successfully (a kubeconfig was provisioned). -/
structure BindResult where
  resp : HResp
  minted : Bool
deriving DecidableEq

/-- `handleBind` (options.go lines 408-478).  The credential minter
`kubeManager.HandleResources(subject, resource, group)` is the `mint`
parameter; `cookies` is the request's cookie jar. -/
def handleBind (mint : List Nat → List Nat → List Nat → Except (List Nat) (List Nat))
    (cookies : List (List Nat × List Nat))
    (queryS group resource : List Nat) : BindResult :=
  match lookupCookie cookies (ascii "kube-bind-" ++ queryS) with
  | none => ⟨.err 500 (ascii "internal error"), false⟩
  | some ckVal =>
    match sessionDecode ckVal with
    | none => ⟨.err 500 (ascii "internal error"), false⟩
    | some state =>
      match idClaimsUnmarshal state.idToken with
      | none => ⟨.err 500 (ascii "internal error"), false⟩
      | some claims =>
        match mint claims.subject resource group with
        | .error _ => ⟨.err 500 (ascii "internal error"), false⟩
        | .ok kfg =>
          let encoded := b64encode (authResponseMarshal
            (bindAuthResponse state claims kfg group resource))
          match urlParse state.redirectURL with
          | none => ⟨.err 500 (ascii "internal error"), true⟩
          | some url =>
            ⟨.redirect 302 (urlString ⟨url.base,
              url.query ++ [(ascii "auth_response", encoded)]⟩), true⟩

/-- The name under which the provider-side service-export reconciler looks
up its `APIServiceExportResource` entries (`ensureResourcesExist`,
serviceexport reconciler line 117): `resource.Resource + "." +
resource.Group`. -/
def serviceExportResourceLookupName (resource group : List Nat) : List Nat :=
  resource ++ ascii "." ++ group

/-! ## Claims C7, C3, C5 (authorize and callback) -/

/-- C7: `/authorize` returns 400 (no redirect) when `u` or `s` is empty,
and a 302 redirect to the identity provider's auth-code URL when both are
non-empty. -/
theorem handleAuthorize_param_check (authCodeURL : List Nat → List Nat)
    (u s : List Nat) :
    ((u = [] ∨ s = []) → handleAuthorize authCodeURL u s =
      .err 400 (ascii "missing redirect_url or session_id")) ∧
    (u ≠ [] → s ≠ [] → handleAuthorize authCodeURL u s =
      .redirect 302 (authCodeURL (encodeAuthState ⟨u, s⟩))) := by
  constructor
  · intro h
    simp [handleAuthorize, h]
  · intro hu hs
    simp [handleAuthorize, hu, hs]

/-- Witness for C7: an empty `s` is rejected, a full pair redirects. -/
theorem handleAuthorize_param_check_witness :
    handleAuthorize (fun st => ascii "https://idp.example/auth?state=" ++ st)
        (ascii "https://consumer.example/cb") [] =
      .err 400 (ascii "missing redirect_url or session_id") ∧
    handleAuthorize (fun st => ascii "https://idp.example/auth?state=" ++ st)
        (ascii "https://consumer.example/cb") (ascii "abc123") =
      .redirect 302 (ascii "https://idp.example/auth?state=" ++
        encodeAuthState ⟨ascii "https://consumer.example/cb", ascii "abc123"⟩) :=
  ⟨(handleAuthorize_param_check _ _ _).1 (Or.inr rfl),
    (handleAuthorize_param_check _ _ _).2 (by decide) (by decide)⟩

/-- C3: a callback carrying a non-empty `error` parameter yields a 400
whose body includes the `error_description` parameter, and no session
cookie is created. -/
theorem callback_error_param (exchange : List Nat → Except (List Nat) Token)
    (now : Nat) (r : CallbackRequest) (h : r.formError ≠ []) :
    (handleCallback exchange now r).resp =
      .err 400 (r.formError ++ ascii ": " ++ r.formErrorDescription) ∧
    r.formErrorDescription <:+
      (r.formError ++ ascii ": " ++ r.formErrorDescription) ∧
    (handleCallback exchange now r).cookie = none := by
  refine ⟨?_, ?_, ?_⟩
  · simp [handleCallback, h]
  · exact List.suffix_append (r.formError ++ ascii ": ") r.formErrorDescription
  · simp [handleCallback, h]

/-- Witness for C3 at a concrete denied authorization. -/
theorem callback_error_param_witness :
    (handleCallback (fun _ => .error []) 0
        ⟨ascii "access_denied", ascii "user denied", [], [], [], [], []⟩).resp =
      .err 400 (ascii "access_denied" ++ ascii ": " ++ ascii "user denied") ∧
    ascii "user denied" <:+
      (ascii "access_denied" ++ ascii ": " ++ ascii "user denied") ∧
    (handleCallback (fun _ => .error []) 0
        ⟨ascii "access_denied", ascii "user denied", [], [], [], [], []⟩).cookie =
      none :=
  callback_error_param _ _ _ (by decide)

/-- C5: on a successful callback the session cookie is named
`kube-bind-` + session id and its TTL is the fixed hour (3600 seconds),
whatever expiry (`tok.expiry`) the identity provider reported. -/
theorem callback_cookie_fixed (exchange : List Nat → Except (List Nat) Token)
    (now : Nat) (r : CallbackRequest) (decoded : List Nat) (ac : AuthCode)
    (tok : Token) (jwtStr jwt : List Nat)
    (h0 : r.formError = [])
    (hcode : firstNonEmpty r.formCode r.queryCode ≠ [])
    (hstate : b64decode (firstNonEmpty r.formState r.queryState) = some decoded)
    (hac : authCodeUnmarshal decoded = some ac)
    (hex : exchange (firstNonEmpty r.formCode r.queryCode) = .ok tok)
    (hid : tok.idToken = some jwtStr)
    (hjwt : parseJWT jwtStr = .ok jwt) :
    (handleCallback exchange now r).cookie =
      some (makeCookie (ascii "kube-bind-" ++ ac.SessionID)
        (sessionEncode ⟨now, tok.expiry, tok.accessToken, jwt,
          tok.refreshToken, ac.RedirectURL, ac.SessionID⟩) 3600) ∧
    ((handleCallback exchange now r).cookie.map Cookie.name) =
      some (ascii "kube-bind-" ++ ac.SessionID) ∧
    ((handleCallback exchange now r).cookie.map Cookie.maxAgeSeconds) =
      some 3600 := by
  have hres : handleCallback exchange now r =
      ⟨.redirect 302 (ascii "/resources?s=" ++ ac.SessionID),
        some (makeCookie (ascii "kube-bind-" ++ ac.SessionID)
          (sessionEncode ⟨now, tok.expiry, tok.accessToken, jwt,
            tok.refreshToken, ac.RedirectURL, ac.SessionID⟩) 3600)⟩ := by
    simp [handleCallback, h0, hcode, hstate, hac, hex, hid, hjwt]
  rw [hres]
  simp [makeCookie]

/-- Witness for C5: concrete successful callback; the provider-reported
expiry (99999) does not affect the one-hour cookie TTL. -/
theorem callback_cookie_fixed_witness :
    (handleCallback
        (fun _ => .ok ⟨ascii "at", ascii "rt", 99999,
          some (ascii "h.eyJzdWIiOiJhbGljZSJ9")⟩) 1700000000
        ⟨[], [], ascii "authcode", [],
          b64encode (authCodeMarshal ⟨ascii "http://cb", ascii "abc123"⟩),
          [], []⟩).cookie =
      some (makeCookie (ascii "kube-bind-" ++ ascii "abc123")
        (sessionEncode ⟨1700000000, 99999, ascii "at",
          ascii "\x7b\"sub\":\"alice\"\x7d", ascii "rt", ascii "http://cb",
          ascii "abc123"⟩) 3600) ∧
    ((handleCallback
        (fun _ => .ok ⟨ascii "at", ascii "rt", 99999,
          some (ascii "h.eyJzdWIiOiJhbGljZSJ9")⟩) 1700000000
        ⟨[], [], ascii "authcode", [],
          b64encode (authCodeMarshal ⟨ascii "http://cb", ascii "abc123"⟩),
          [], []⟩).cookie.map Cookie.name) =
      some (ascii "kube-bind-" ++ ascii "abc123") ∧
    ((handleCallback
        (fun _ => .ok ⟨ascii "at", ascii "rt", 99999,
          some (ascii "h.eyJzdWIiOiJhbGljZSJ9")⟩) 1700000000
        ⟨[], [], ascii "authcode", [],
          b64encode (authCodeMarshal ⟨ascii "http://cb", ascii "abc123"⟩),
          [], []⟩).cookie.map Cookie.maxAgeSeconds) = some 3600 :=
  callback_cookie_fixed
    (fun _ => .ok ⟨ascii "at", ascii "rt", 99999,
      some (ascii "h.eyJzdWIiOiJhbGljZSJ9")⟩) 1700000000
    ⟨[], [], ascii "authcode", [],
      b64encode (authCodeMarshal ⟨ascii "http://cb", ascii "abc123"⟩), [], []⟩
    (authCodeMarshal ⟨ascii "http://cb", ascii "abc123"⟩)
    ⟨ascii "http://cb", ascii "abc123"⟩
    ⟨ascii "at", ascii "rt", 99999, some (ascii "h.eyJzdWIiOiJhbGljZSJ9")⟩
    (ascii "h.eyJzdWIiOiJhbGljZSJ9")
    (ascii "\x7b\"sub\":\"alice\"\x7d") rfl (by decide) rfl rfl rfl rfl rfl

/-! ## Claim C8: masking of upstream failures -/

/-- C8: upstream failures — token-exchange failure in the callback,
cookie-retrieval, cookie-decode and credential-minting failures in bind —
produce only the generic "internal error" body, whatever the upstream
error text was; nothing upstream is echoed. -/
theorem upstream_failures_masked :
    (∀ (exchange : List Nat → Except (List Nat) Token) (now : Nat)
        (r : CallbackRequest) (decoded : List Nat) (ac : AuthCode)
        (e : List Nat),
      r.formError = [] → firstNonEmpty r.formCode r.queryCode ≠ [] →
      b64decode (firstNonEmpty r.formState r.queryState) = some decoded →
      authCodeUnmarshal decoded = some ac →
      exchange (firstNonEmpty r.formCode r.queryCode) = .error e →
      handleCallback exchange now r =
        ⟨.err 500 (ascii "internal error"), none⟩) ∧
    (∀ (mint : List Nat → List Nat → List Nat → Except (List Nat) (List Nat))
        (cookies : List (List Nat × List Nat)) (queryS group resource : List Nat),
      lookupCookie cookies (ascii "kube-bind-" ++ queryS) = none →
      handleBind mint cookies queryS group resource =
        ⟨.err 500 (ascii "internal error"), false⟩) ∧
    (∀ (mint : List Nat → List Nat → List Nat → Except (List Nat) (List Nat))
        (cookies : List (List Nat × List Nat)) (queryS group resource ckVal : List Nat),
      lookupCookie cookies (ascii "kube-bind-" ++ queryS) = some ckVal →
      sessionDecode ckVal = none →
      handleBind mint cookies queryS group resource =
        ⟨.err 500 (ascii "internal error"), false⟩) ∧
    (∀ (mint : List Nat → List Nat → List Nat → Except (List Nat) (List Nat))
        (cookies : List (List Nat × List Nat))
        (queryS group resource ckVal : List Nat) (state : SessionState)
        (claims : IdentityClaims) (e : List Nat),
      lookupCookie cookies (ascii "kube-bind-" ++ queryS) = some ckVal →
      sessionDecode ckVal = some state →
      idClaimsUnmarshal state.idToken = some claims →
      mint claims.subject resource group = .error e →
      handleBind mint cookies queryS group resource =
        ⟨.err 500 (ascii "internal error"), false⟩) := by
  refine ⟨?_, ?_, ?_, ?_⟩
  · intro exchange now r decoded ac e h0 hcode hstate hac hex
    simp [handleCallback, h0, hcode, hstate, hac, hex]
  · intro mint cookies queryS group resource hck
    simp [handleBind, hck]
  · intro mint cookies queryS group resource ckVal hck hsd
    simp [handleBind, hck, hsd]
  · intro mint cookies queryS group resource ckVal state claims e hck hsd hic hmint
    simp [handleBind, hck, hsd, hic, hmint]

/-- Witness for C8: concrete exchange, missing-cookie, corrupt-cookie and
minting failures, each answered with the bare generic body. -/
theorem upstream_failures_masked_witness :
    handleCallback (fun _ => .error (ascii "connection refused")) 0
      ⟨[], [], ascii "c", [],
        b64encode (authCodeMarshal ⟨ascii "u", ascii "s"⟩), [], []⟩ =
      ⟨.err 500 (ascii "internal error"), none⟩ ∧
    handleBind (fun _ _ _ => .ok []) [] (ascii "s1") (ascii "g") (ascii "r") =
      ⟨.err 500 (ascii "internal error"), false⟩ ∧
    handleBind (fun _ _ _ => .ok [])
      [(ascii "kube-bind-" ++ ascii "s1", ascii "garbage")] (ascii "s1")
      (ascii "g") (ascii "r") =
      ⟨.err 500 (ascii "internal error"), false⟩ ∧
    handleBind (fun _ _ _ => .error (ascii "namespace quota exceeded"))
      [(ascii "kube-bind-" ++ ascii "s1", sessionEncode
        ⟨0, 0, ascii "at", ascii "\x7b\"sub\":\"alice\",\"iss\":\"https://idp\"\x7d",
          ascii "rt", ascii "http://cb", ascii "s1"⟩)] (ascii "s1")
      (ascii "g") (ascii "r") =
      ⟨.err 500 (ascii "internal error"), false⟩ :=
  ⟨upstream_failures_masked.1 (fun _ => .error (ascii "connection refused")) 0
      ⟨[], [], ascii "c", [],
        b64encode (authCodeMarshal ⟨ascii "u", ascii "s"⟩), [], []⟩
      (authCodeMarshal ⟨ascii "u", ascii "s"⟩) ⟨ascii "u", ascii "s"⟩
      (ascii "connection refused") rfl (by decide) rfl rfl rfl,
    upstream_failures_masked.2.1 _ _ _ _ _ rfl,
    upstream_failures_masked.2.2.1 _ _ _ _ _ (ascii "garbage") rfl rfl,
    upstream_failures_masked.2.2.2
      (fun _ _ _ => .error (ascii "namespace quota exceeded"))
      [(ascii "kube-bind-" ++ ascii "s1", sessionEncode
        ⟨0, 0, ascii "at", ascii "\x7b\"sub\":\"alice\",\"iss\":\"https://idp\"\x7d",
          ascii "rt", ascii "http://cb", ascii "s1"⟩)]
      (ascii "s1") (ascii "g") (ascii "r")
      (sessionEncode ⟨0, 0, ascii "at",
        ascii "\x7b\"sub\":\"alice\",\"iss\":\"https://idp\"\x7d", ascii "rt",
        ascii "http://cb", ascii "s1"⟩)
      ⟨0, 0, ascii "at", ascii "\x7b\"sub\":\"alice\",\"iss\":\"https://idp\"\x7d",
        ascii "rt", ascii "http://cb", ascii "s1"⟩
      ⟨ascii "alice", ascii "https://idp"⟩ (ascii "namespace quota exceeded")
      rfl rfl rfl rfl⟩

/-! ## Claim C4: persisted artifacts on failure -/

/-- C4 (amended): a callback error response writes no cookie; a bind error
response has minted no credential unless the failing step is the post-mint
redirect-URL parse, in which case the credential was already
provisioned. -/
theorem no_artifact_except_post_mint :
    (∀ (exchange : List Nat → Except (List Nat) Token) (now : Nat)
        (r : CallbackRequest),
      (handleCallback exchange now r).resp.isErr = true →
      (handleCallback exchange now r).cookie = none) ∧
    (∀ (mint : List Nat → List Nat → List Nat → Except (List Nat) (List Nat))
        (cookies : List (List Nat × List Nat)) (queryS group resource : List Nat),
      (handleBind mint cookies queryS group resource).resp.isErr = true →
      (handleBind mint cookies queryS group resource).minted = true →
      ∃ ckVal state,
        lookupCookie cookies (ascii "kube-bind-" ++ queryS) = some ckVal ∧
        sessionDecode ckVal = some state ∧
        urlParse state.redirectURL = none) := by
  constructor
  · intro exchange now r
    unfold handleCallback
    by_cases h0 : r.formError ≠ []
    · simp [h0]
    · simp only [h0, if_false, ite_false]
      by_cases hcode : firstNonEmpty r.formCode r.queryCode = []
      · simp [h0, hcode]
      · simp only [h0, hcode, if_false, ite_false, if_neg]
        cases hdec : b64decode (firstNonEmpty r.formState r.queryState) with
        | none => simp [hcode, hdec]
        | some decoded =>
          cases hac : authCodeUnmarshal decoded with
          | none => simp [hcode, hdec, hac]
          | some ac =>
            cases hex : exchange (firstNonEmpty r.formCode r.queryCode) with
            | error e => simp [hcode, hdec, hac, hex]
            | ok tok =>
              cases hid : tok.idToken with
              | none => simp [hcode, hdec, hac, hex, hid]
              | some jwtStr =>
                cases hjwt : parseJWT jwtStr with
                | error e => simp [hcode, hdec, hac, hex, hid, hjwt]
                | ok jwt => simp [hcode, hdec, hac, hex, hid, hjwt, HResp.isErr]
  · intro mint cookies queryS group resource h hm
    cases hck : lookupCookie cookies (ascii "kube-bind-" ++ queryS) with
    | none => simp [handleBind, hck] at hm
    | some ckVal =>
      cases hsd : sessionDecode ckVal with
      | none => simp [handleBind, hck, hsd] at hm
      | some state =>
        cases hic : idClaimsUnmarshal state.idToken with
        | none => simp [handleBind, hck, hsd, hic] at hm
        | some claims =>
          cases hmint : mint claims.subject resource group with
          | error e => simp [handleBind, hck, hsd, hic, hmint] at hm
          | ok kfg =>
            cases hurl : urlParse state.redirectURL with
            | none => exact ⟨ckVal, state, rfl, hsd, hurl⟩
            | some url =>
              simp [handleBind, hck, hsd, hic, hmint, hurl, HResp.isErr] at h

/-- C4 counterexample: a stored redirect URL containing a control byte
makes the final `url.Parse` fail after the minter already provisioned the
credential: the bind handler answers with an error response, yet a
credential was minted — contradicting "no persisted artifact on any
failure". -/
theorem bind_error_response_after_mint :
    (handleBind (fun _ _ _ => .ok (ascii "kubeconfig"))
        [(ascii "kube-bind-" ++ ascii "sid", sessionEncode
          ⟨0, 0, ascii "at",
            ascii "\x7b\"sub\":\"alice\",\"iss\":\"https://idp\"\x7d", ascii "rt",
            ascii "http://consumer.example/cb" ++ [0x0a], ascii "sid"⟩)]
        (ascii "sid") (ascii "example.io") (ascii "widgets")).resp.isErr =
      true ∧
    (handleBind (fun _ _ _ => .ok (ascii "kubeconfig"))
        [(ascii "kube-bind-" ++ ascii "sid", sessionEncode
          ⟨0, 0, ascii "at",
            ascii "\x7b\"sub\":\"alice\",\"iss\":\"https://idp\"\x7d", ascii "rt",
            ascii "http://consumer.example/cb" ++ [0x0a], ascii "sid"⟩)]
        (ascii "sid") (ascii "example.io") (ascii "widgets")).minted =
      true := by
  decide

/-- Witness for the amended C4: a failed callback leaves no cookie, and
the only error-with-mint bind case is the post-mint URL-parse failure. -/
theorem no_artifact_except_post_mint_witness :
    (handleCallback (fun _ => .error []) 0
        ⟨ascii "access_denied", [], [], [], [], [], []⟩).cookie = none ∧
    ∃ ckVal state,
      lookupCookie
          [(ascii "kube-bind-" ++ ascii "sid", sessionEncode
            ⟨0, 0, ascii "at",
              ascii "\x7b\"sub\":\"alice\",\"iss\":\"https://idp\"\x7d", ascii "rt",
              ascii "http://consumer.example/cb" ++ [0x0a], ascii "sid"⟩)]
          (ascii "kube-bind-" ++ ascii "sid") = some ckVal ∧
        sessionDecode ckVal = some state ∧
        urlParse state.redirectURL = none :=
  ⟨no_artifact_except_post_mint.1 (fun _ => .error []) 0
      ⟨ascii "access_denied", [], [], [], [], [], []⟩ (by decide),
    no_artifact_except_post_mint.2 (fun _ _ _ => .ok (ascii "kubeconfig"))
      [(ascii "kube-bind-" ++ ascii "sid", sessionEncode
        ⟨0, 0, ascii "at",
          ascii "\x7b\"sub\":\"alice\",\"iss\":\"https://idp\"\x7d", ascii "rt",
          ascii "http://consumer.example/cb" ++ [0x0a], ascii "sid"⟩)]
      (ascii "sid") (ascii "example.io") (ascii "widgets") (by decide)
      (by decide)⟩

/-! ## Claim C2: the export key of the bind credential -/

/-- C2: a successful bind redirects with an `auth_response` payload whose
`CredentialResponse` (`AuthResponse`) carries
`Export = resource + "." + group`, exactly the name the provider-side
service-export reconciler uses to look up its `APIServiceExportResource`
entries. -/
theorem bind_export_key
    (mint : List Nat → List Nat → List Nat → Except (List Nat) (List Nat))
    (cookies : List (List Nat × List Nat))
    (queryS group resource ckVal kfg : List Nat) (state : SessionState)
    (claims : IdentityClaims) (url : GoURL)
    (hck : lookupCookie cookies (ascii "kube-bind-" ++ queryS) = some ckVal)
    (hsd : sessionDecode ckVal = some state)
    (hic : idClaimsUnmarshal state.idToken = some claims)
    (hmint : mint claims.subject resource group = .ok kfg)
    (hurl : urlParse state.redirectURL = some url) :
    handleBind mint cookies queryS group resource =
      ⟨.redirect 302 (urlString ⟨url.base, url.query ++
        [(ascii "auth_response", b64encode (authResponseMarshal
          (bindAuthResponse state claims kfg group resource)))]⟩), true⟩ ∧
    (bindAuthResponse state claims kfg group resource).Export =
      serviceExportResourceLookupName resource group ∧
    serviceExportResourceLookupName resource group =
      resource ++ ascii "." ++ group := by
  refine ⟨?_, rfl, rfl⟩
  simp [handleBind, hck, hsd, hic, hmint, hurl]

/-- Witness for C2 at a concrete bind. -/
theorem bind_export_key_witness :
    handleBind (fun _ _ _ => .ok (ascii "kubeconfig"))
        [(ascii "kube-bind-" ++ ascii "sid", sessionEncode
          ⟨0, 0, ascii "at",
            ascii "\x7b\"sub\":\"alice\",\"iss\":\"https://idp\"\x7d", ascii "rt",
            ascii "http://consumer.example/cb", ascii "sid"⟩)]
        (ascii "sid") (ascii "example.io") (ascii "widgets") =
      ⟨.redirect 302 (urlString ⟨ascii "http://consumer.example/cb",
        [] ++ [(ascii "auth_response", b64encode (authResponseMarshal
          (bindAuthResponse
            ⟨0, 0, ascii "at",
              ascii "\x7b\"sub\":\"alice\",\"iss\":\"https://idp\"\x7d", ascii "rt",
              ascii "http://consumer.example/cb", ascii "sid"⟩
            ⟨ascii "alice", ascii "https://idp"⟩ (ascii "kubeconfig")
            (ascii "example.io") (ascii "widgets"))))]⟩), true⟩ ∧
    (bindAuthResponse
        ⟨0, 0, ascii "at",
          ascii "\x7b\"sub\":\"alice\",\"iss\":\"https://idp\"\x7d", ascii "rt",
          ascii "http://consumer.example/cb", ascii "sid"⟩
        ⟨ascii "alice", ascii "https://idp"⟩ (ascii "kubeconfig")
        (ascii "example.io") (ascii "widgets")).Export =
      serviceExportResourceLookupName (ascii "widgets") (ascii "example.io") ∧
    serviceExportResourceLookupName (ascii "widgets") (ascii "example.io") =
      ascii "widgets" ++ ascii "." ++ ascii "example.io" :=
  bind_export_key (fun _ _ _ => .ok (ascii "kubeconfig"))
    [(ascii "kube-bind-" ++ ascii "sid", sessionEncode
      ⟨0, 0, ascii "at", ascii "\x7b\"sub\":\"alice\",\"iss\":\"https://idp\"\x7d",
        ascii "rt", ascii "http://consumer.example/cb", ascii "sid"⟩)]
    (ascii "sid") (ascii "example.io") (ascii "widgets")
    (sessionEncode ⟨0, 0, ascii "at",
      ascii "\x7b\"sub\":\"alice\",\"iss\":\"https://idp\"\x7d", ascii "rt",
      ascii "http://consumer.example/cb", ascii "sid"⟩) (ascii "kubeconfig")
    ⟨0, 0, ascii "at", ascii "\x7b\"sub\":\"alice\",\"iss\":\"https://idp\"\x7d",
      ascii "rt", ascii "http://consumer.example/cb", ascii "sid"⟩
    ⟨ascii "alice", ascii "https://idp"⟩
    ⟨ascii "http://consumer.example/cb", []⟩ rfl rfl rfl rfl rfl

/-! ## Claims C6 and C9: the auto-select override -/

/-- C6: with a non-empty dotted auto-select override, `/resources` ignores
its query parameters and collaborators entirely and redirects (302) to the
fixed pair obtained by splitting the override at its first dot. -/
theorem autoselect_bypass (tas : List Nat) (hne : tas ≠ [])
    (hdot : tas.contains 0x2e = true) (queryS queryS' : List Nat)
    (listing listing' : Except (List Nat) (List (List Nat)))
    (render render' : List Nat → List (List Nat) → List Nat) :
    handleResources tas queryS listing render =
      handleResources tas queryS' listing' render' ∧
    handleResources tas queryS listing render =
      some (.redirect 302 (ascii "/resources/" ++
        tas.takeWhile (fun b => b != 0x2e) ++ ascii "/" ++
        (tas.dropWhile (fun b => b != 0x2e)).tail)) := by
  have hval : ∀ (qs : List Nat) (l : Except (List Nat) (List (List Nat)))
      (rd : List Nat → List (List Nat) → List Nat),
      handleResources tas qs l rd =
        some (.redirect 302 (ascii "/resources/" ++
          tas.takeWhile (fun b => b != 0x2e) ++ ascii "/" ++
          (tas.dropWhile (fun b => b != 0x2e)).tail)) := by
    intro qs l rd
    have hmem : 0x2e ∈ tas := by simpa using hdot
    simp [handleResources, hne, splitN2Dot, hmem]
  exact ⟨(hval _ _ _).trans (hval _ _ _).symm, hval _ _ _⟩

/-- Witness for C6 with the override `foo.bar`: the redirect goes to
`/resources/foo/bar` whatever the query and collaborators are. -/
theorem autoselect_bypass_witness :
    handleResources (ascii "foo.bar") (ascii "s1") (.ok [])
        (fun _ _ => []) =
      handleResources (ascii "foo.bar") (ascii "other")
        (.error (ascii "boom")) (fun _ crds => (ascii "html") ++ crds.flatten) ∧
    handleResources (ascii "foo.bar") (ascii "s1") (.ok [])
        (fun _ _ => []) =
      some (.redirect 302 (ascii "/resources/" ++
        (ascii "foo.bar").takeWhile (fun b => b != 0x2e) ++ ascii "/" ++
        ((ascii "foo.bar").dropWhile (fun b => b != 0x2e)).tail)) :=
  autoselect_bypass (ascii "foo.bar") (by decide) (by decide) (ascii "s1")
    (ascii "other") (.ok []) (.error (ascii "boom")) (fun _ _ => [])
    (fun _ crds => (ascii "html") ++ crds.flatten)

/-- C9: a non-empty auto-select override without a dot makes the
auto-select branch index `parts[1]` past the end of the 1-element
`SplitN` result: the Go handler panics (modelled as `none`) instead of
returning any HTTP response. -/
theorem autoselect_no_dot_panics (tas queryS : List Nat)
    (listing : Except (List Nat) (List (List Nat)))
    (render : List Nat → List (List Nat) → List Nat) (hne : tas ≠ [])
    (hnd : tas.contains 0x2e = false) :
    handleResources tas queryS listing render = none ∧
    splitN2Dot tas = [tas] := by
  have hmem : 0x2e ∉ tas := by simpa using hnd
  have hsplit : splitN2Dot tas = [tas] := by
    simp [splitN2Dot, hmem]
  refine ⟨?_, hsplit⟩
  simp [handleResources, hne, hsplit]

/-- Witness for C9 at the dotless override `foo`. -/
theorem autoselect_no_dot_panics_witness :
    handleResources (ascii "foo") (ascii "s1") (.ok []) (fun _ _ => []) =
      none ∧
    splitN2Dot (ascii "foo") = [ascii "foo"] :=
  autoselect_no_dot_panics (ascii "foo") (ascii "s1") (.ok [])
    (fun _ _ => []) (by decide) (by decide)
